import Mathlib

/-
Verification development for the digital_visual_computer repository
(dvc_core + color_lang), a shallow embedding of the Python sources:

  src/dvc_core/opcodes.py, program.py, vm.py, hash_chain.py,
  trace_models.py, verifier.py, bundle.py
  src/color_lang/palette.py, decoder.py
  src/lib/program_loader.py

Modelling conventions, used throughout:
 * Python arbitrary-precision ints are Lean Int; the decimal strings of the
   wire format are produced with toString.
 * JSON dictionaries of fixed shape are Lean structures; a field that the
   Python code emits only when non-None is an Option field ("omitted vs
   null" collapses to none).  Presence checks on required fields of typed
   records ("field in step") hold by typing and are noted where collapsed.
 * sha256/canonical-json hashing (hash_chain.step_hash composed with
   canonical_json_bytes) is kept abstract: every operation takes the hash
   function sh : StepCore -> String -> String as an argument.  The builder
   and the verifier call the same sh, exactly as both Python modules import
   the same step_hash, so chain validity is proved for every sh, the real
   sha256 included.
 * datetime.now() readings are explicit String arguments (now1, now2).
-/

namespace DVC

/-- hash_chain.ZERO_HASH: the 64-character all-zeros hex string. -/
def ZERO_HASH : String :=
  "0000000000000000000000000000000000000000000000000000000000000000"

/-- opcodes.Instruction: an opcode name and the optional decimal-string
immediate (only PUSHI carries one in validated programs). -/
structure Instruction where
  op : String
  arg : Option String
deriving DecidableEq, Repr

/-- opcodes.OPCODES: the fixed opcode set. -/
def OPCODES : List String :=
  ["NOP", "HALT", "PUSHI", "POP", "ADD", "SUB", "MUL", "DIV", "PRINT",
   "RED_OP", "GREEN_OP", "BLUE_OP", "WHITE_OP"]

/-- opcodes.validate_instruction: raises (here: .error) on an unknown
opcode, on PUSHI without arg, and on any other opcode with an arg. -/
def validate_instruction (instr : Instruction) : Except String Unit :=
  if instr.op ∉ OPCODES then
    Except.error ("Unknown opcode: " ++ instr.op)
  else if instr.op = "PUSHI" ∧ instr.arg = none then
    Except.error "PUSHI requires arg"
  else if instr.op ≠ "PUSHI" ∧ instr.arg ≠ none then
    Except.error (instr.op ++ " must not have arg")
  else
    Except.ok ()

/-- A whole program is validated instruction by instruction
(program.Program.from_json_array ends in validate_instruction); this is
the boolean form used as the hypothesis of C1. -/
def validProgramB (p : List Instruction) : Bool :=
  p.all (fun i => match validate_instruction i with
    | Except.ok _ => true
    | Except.error _ => false)

/-- vm_state.VMState.status values. -/
inductive Status where
  | running
  | halted
  | faulted
deriving DecidableEq, Repr

/-- vm_state.VMState.  The stack list is kept in Python list order:
bottom of the stack first, top of the stack last (append pushes, pop
takes the last element). -/
structure VMState where
  ip : Nat
  stack : List Int
  outputs : List Int
  status : Status
deriving DecidableEq, Repr

/-- vm._to_str_list: decimal-string image of an integer list. -/
def to_str_list (vals : List Int) : List String :=
  vals.map (fun v => toString v)

/-- Python list.pop on a list with top last: the popped element and the
remaining list, or none on the empty list (vm.execute raises
"stack underflow" there). -/
def pyPop (l : List Int) : Option (Int × List Int) :=
  match l.getLast? with
  | none => none
  | some x => some (x, l.dropLast)

/-- Decimal-digit run parser used by pyIntOfString?. -/
def decDigitsAux : List Char → Nat → Option Nat
  | [], acc => some acc
  | c :: cs, acc =>
      if c.isDigit then decDigitsAux cs (10 * acc + (c.toNat - 48)) else none

/-- Nonempty decimal-digit run. -/
def decNat? : List Char → Option Nat
  | [] => none
  | cs => decDigitsAux cs 0

/-- Python int(s) on the canonical decimal immediates of the wire format
(an optional minus sign followed by digits); other strings fail, as
int() raises on non-numeric input.  (int() also accepts forms such as
leading whitespace or underscores that never occur in canonical
programs; those are outside this model.) -/
def pyIntOfString? (s : String) : Option Int :=
  match s.toList with
  | '-' :: cs => (decNat? cs).map (fun n => -(n : Int))
  | cs => (decNat? cs).map (fun n => (n : Int))

/-
One dispatch of vm.execute's try-block is execStep below: the new
state, the step's optional output string, and the step's optional
fault string.  Faults set status to faulted (the except branch); HALT
sets it to halted; the ip is incremented only when the arm completes.
Partial mutation before a raise is modelled exactly: a binary op pops
its first operand even when the second pop underflows, and DIV pops
both operands before raising "division by zero".  The arms of the
elif-chain are the named helpers below.
-/

/-- A raise caught by the except branch: the (possibly part-mutated)
stack is kept, status becomes faulted, the fault string is attached. -/
def faultRes (st : VMState) (stack : List Int) (msg : String) :
    VMState × Option String × Option String :=
  ({ st with stack := stack, status := Status.faulted }, none, some msg)

/-- The NOP arm of vm.execute's dispatch. -/
def nopStep (st : VMState) : VMState × Option String × Option String :=
  ({ st with ip := st.ip + 1 }, none, none)

/-- The HALT arm. -/
def haltStep (st : VMState) : VMState × Option String × Option String :=
  ({ st with status := Status.halted, ip := st.ip + 1 }, none, none)

/-- The PUSHI arm: the assert on a missing arg raises AssertionError
(whose str() is ""), int() on a non-numeric arg raises ValueError;
otherwise the parsed integer is pushed. -/
def pushiStep (arg : Option String) (st : VMState) :
    VMState × Option String × Option String :=
  match arg with
  | none => faultRes st st.stack ""
  | some s =>
      match pyIntOfString? s with
      | none =>
          faultRes st st.stack
            ("invalid literal for int() with base 10: '" ++ s ++ "'")
      | some v =>
          ({ st with stack := st.stack ++ [v], ip := st.ip + 1 }, none, none)

/-- The POP arm. -/
def popStep (st : VMState) : VMState × Option String × Option String :=
  match pyPop st.stack with
  | none => faultRes st st.stack "stack underflow"
  | some (_, s1) => ({ st with stack := s1, ip := st.ip + 1 }, none, none)

/-- The ADD/SUB/MUL arms: b then a are popped (so the first pop's
mutation survives an underflow of the second), and f a b is pushed. -/
def binStep (f : Int → Int → Int) (st : VMState) :
    VMState × Option String × Option String :=
  match pyPop st.stack with
  | none => faultRes st st.stack "stack underflow"
  | some (b, s1) =>
      match pyPop s1 with
      | none => faultRes st s1 "stack underflow"
      | some (a, s2) =>
          ({ st with stack := s2 ++ [f a b], ip := st.ip + 1 }, none, none)

/-- The DIV arm: both operands are popped before the zero check, so a
division by zero faults with both already consumed.  The source pushes
int(a / b) under a comment "truncate toward zero"; over exact integers
that is Int.tdiv a b whenever the binary64 quotient rounds exactly.
The embedding adopts the documented truncate-toward-zero semantics;
the deviation of int(a / b) at large magnitudes is the code bug
recorded at claim C3. -/
def divStep (st : VMState) : VMState × Option String × Option String :=
  match pyPop st.stack with
  | none => faultRes st st.stack "stack underflow"
  | some (b, s1) =>
      match pyPop s1 with
      | none => faultRes st s1 "stack underflow"
      | some (a, s2) =>
          if b = 0 then faultRes st s2 "division by zero"
          else ({ st with stack := s2 ++ [Int.tdiv a b], ip := st.ip + 1 },
                none, none)

/-- The PRINT arm: pop v, append it to the outputs, record it as this
step's output. -/
def printStep (st : VMState) : VMState × Option String × Option String :=
  match pyPop st.stack with
  | none => faultRes st st.stack "stack underflow"
  | some (v, s1) =>
      ({ st with stack := s1, outputs := st.outputs ++ [v], ip := st.ip + 1 },
       some (toString v), none)

def execStep (instr : Instruction) (st : VMState) :
    VMState × Option String × Option String :=
  if instr.op = "NOP" then nopStep st
  else if instr.op = "HALT" then haltStep st
  else if instr.op = "PUSHI" then pushiStep instr.arg st
  else if instr.op = "POP" then popStep st
  else if instr.op = "ADD" then binStep (fun a b => a + b) st
  else if instr.op = "SUB" then binStep (fun a b => a - b) st
  else if instr.op = "MUL" then binStep (fun a b => a * b) st
  else if instr.op = "DIV" then divStep st
  else if instr.op = "PRINT" then printStep st
  else
    -- raise RuntimeError of an unknown opcode at dispatch; by the
    -- dispatch order this is every opcode outside NOP..PRINT, the four
    -- reserved color opcodes of OPCODES included.
    faultRes st st.stack ("unknown opcode: " ++ instr.op)

/-- trace_models.step_to_ordered_dict's image: the ordered subset of a
step's fields that is hashed (everything except step_hash).  Optional
fields are none exactly when the dict omits them. -/
structure StepCore where
  index : Nat
  ip : Nat
  op : String
  arg : Option String
  stack_before : List String
  stack_after : List String
  output : Option String
  note : Option String
  fault : Option String
deriving DecidableEq, Repr

/-- One step of the trace JSON: step_to_ordered_dict's fields plus
step_hash. -/
structure TraceStep where
  index : Nat
  ip : Nat
  op : String
  arg : Option String
  stack_before : List String
  stack_after : List String
  output : Option String
  note : Option String
  fault : Option String
  step_hash : String
deriving DecidableEq, Repr

/-- verifier.verify_trace's per-step reconstruction of the hashed dict
from a trace step (the step_dict built field by field, optional fields
included only when present and non-None). -/
def step_dict_of (s : TraceStep) : StepCore :=
  { index := s.index, ip := s.ip, op := s.op, arg := s.arg,
    stack_before := s.stack_before, stack_after := s.stack_after,
    output := s.output, note := s.note, fault := s.fault }

/-- trace meta block of vm.execute (color_provenance is attached by the
color pipeline only, never by execute). -/
structure ColorProvenance where
  palette_hash : String
  compiler_version : String
  tile_size : Int
  grid_width : Int
  grid_height : Int
  tiles_processed : Int
  instructions_generated : Int
deriving DecidableEq, Repr

structure TraceMeta where
  version : String
  step_limit : Nat
  halted : Bool
  faulted : Bool
  outputs : List String
  final_root : String
  started_at : String
  finished_at : String
  color_provenance : Option ColorProvenance
deriving DecidableEq, Repr

structure Trace where
  meta : TraceMeta
  steps : List TraceStep
deriving DecidableEq, Repr

/-- The state vm.execute's while-loop carries besides the VMState: the
emitted steps, the rolling prev hash, the faulted flag and the step
counter i. -/
structure ExecOut where
  steps : List TraceStep
  state : VMState
  prev : String
  faulted : Bool
  i : Nat
deriving DecidableEq, Repr

/-- One iteration's body of vm.execute's while-loop: dispatch the
instruction, build the step record (stack_before taken before the
dispatch, stack_after and the optional output/fault after), hash its
core against prev and attach step_hash.  Returns the new VMState and
the emitted step. -/
def stepEmit (sh : StepCore → String → String) (instr : Instruction)
    (i : Nat) (st : VMState) (prev : String) : VMState × TraceStep :=
  let sb := to_str_list st.stack
  let r := execStep instr st
  let core : StepCore :=
    { index := i, ip := st.ip, op := instr.op, arg := instr.arg,
      stack_before := sb, stack_after := to_str_list r.1.stack,
      output := r.2.1, note := none, fault := r.2.2 }
  (r.1,
   { index := core.index, ip := core.ip, op := core.op, arg := core.arg,
     stack_before := core.stack_before, stack_after := core.stack_after,
     output := core.output, note := core.note, fault := core.fault,
     step_hash := sh core prev })

/-- vm.execute's while-loop.  fuel is the remaining budget
step_limit - i, so "i < step_limit" of the source is "fuel > 0"; the
other two conjuncts of the loop condition are tested explicitly.  Each
iteration emits exactly one step and increments i, as in the source
(prev becomes the emitted step's hash, and the faulted flag is set
when the step records a fault). -/
def execLoop (sh : StepCore → String → String) (prog : List Instruction) :
    Nat → Nat → VMState → String → Bool → List TraceStep → ExecOut
  | 0, i, st, prev, fl, acc => ⟨acc, st, prev, fl, i⟩
  | fuel + 1, i, st, prev, fl, acc =>
      if hc : st.status = Status.running ∧ st.ip < prog.length then
        let e := stepEmit sh (prog.get ⟨st.ip, hc.2⟩) i st prev
        execLoop sh prog fuel (i + 1) e.1 e.2.step_hash
          (fl || e.2.fault.isSome) (acc ++ [e.2])
      else ⟨acc, st, prev, fl, i⟩

/-- The verifier's "last step hash, or ZERO_HASH on the empty list"
(expected_final of verify_trace), parameterised by the default. -/
def lastHashOr (d : String) (steps : List TraceStep) : String :=
  match steps.getLast? with
  | none => d
  | some s => s.step_hash

/-- vm.execute: runs the loop from the initial state, applies the
step-limit graceful halt, and assembles the trace.  now1 and now2 are
the two datetime.now() readings (used only when deterministic_meta is
false). -/
def execute (sh : StepCore → String → String) (now1 now2 : String)
    (program : List Instruction) (step_limit : Nat)
    (deterministic_meta : Bool) : Trace :=
  let started_at := if deterministic_meta then "1970-01-01T00:00:00Z" else now1
  let r := execLoop sh program step_limit 0
    { ip := 0, stack := [], outputs := [], status := Status.running }
    ZERO_HASH false []
  let finalStatus :=
    if step_limit ≤ r.i ∧ r.state.status = Status.running then Status.halted
    else r.state.status
  let finished_at := if deterministic_meta then "1970-01-01T00:00:00Z" else now2
  { meta :=
      { version := "dvc-trace-0.1",
        step_limit := step_limit,
        halted := match finalStatus with | Status.halted => true | _ => false,
        faulted := r.faulted,
        outputs := to_str_list r.state.outputs,
        final_root := r.prev,
        started_at := started_at,
        finished_at := finished_at,
        color_provenance := none },
    steps := r.steps }

/-- verifier.verify_trace's result record. -/
structure VerifyResult where
  status : String
  valid : Bool
  error : Option String
  final_root : String
  steps : Nat
  faulted : Bool
  halted : Bool
deriving DecidableEq, Repr

def mkInvalid (err fr : String) (n : Nat) (meta : TraceMeta) : VerifyResult :=
  { status := "invalid", valid := false, error := some err, final_root := fr,
    steps := n, faulted := meta.faulted, halted := meta.halted }

def mkValid (fr : String) (n : Nat) (meta : TraceMeta) : VerifyResult :=
  { status := "valid", valid := true, error := none, final_root := fr,
    steps := n, faulted := meta.faulted, halted := meta.halted }

/-- verify_trace's hash-chain loop: recompute each step's hash from the
rebuilt step_dict and the rolling prev, reporting the first mismatch
(the required-fields check of the loop holds by typing here). -/
def chainErr (sh : StepCore → String → String) :
    Nat → String → List TraceStep → Option String
  | _, _, [] => none
  | i, prev, s :: rest =>
      let computed := sh (step_dict_of s) prev
      if computed ≠ s.step_hash then
        some ("hash chain broken at step " ++ toString i)
      else chainErr sh (i + 1) computed rest

/-- verify_trace's outputs collection: per-step output values, in step
order, where present. -/
def stepOutputs (steps : List TraceStep) : List String :=
  steps.filterMap (fun s => s.output)

/-- verify_trace's color_provenance validation (shape checks on the
typed record collapse; the value checks are kept).  A present-but-empty
provenance dict, which Python's truthiness would skip, is not
representable in the typed model. -/
def provErr : Option ColorProvenance → Option String
  | none => none
  | some cp =>
      if cp.palette_hash = "" then
        some "color_provenance.palette_hash is invalid"
      else if cp.compiler_version = "" then
        some "color_provenance.compiler_version is invalid"
      else if cp.tile_size ≤ 0 then
        some "color_provenance.tile_size is invalid"
      else if cp.grid_width ≤ 0 ∨ cp.grid_height ≤ 0 then
        some "color_provenance.grid_size dimensions are invalid"
      else if cp.tiles_processed < 0 ∨ cp.instructions_generated < 0 then
        some "color_provenance.compilation_summary counts are invalid"
      else none

/-- verify_trace's strict check 1: steps[i].index == i. -/
def idxErr : Nat → List TraceStep → Option String
  | _, [] => none
  | i, s :: rest =>
      if s.index ≠ i then
        some ("step index mismatch at position " ++ toString i)
      else idxErr (i + 1) rest

/-- verify_trace's strict check 2: stack continuity between adjacent
steps. -/
def contErr : Nat → List TraceStep → Option String
  | _, [] => none
  | _, [_] => none
  | i, s :: s' :: rest =>
      if s.stack_after ≠ s'.stack_before then
        some ("stack discontinuity between steps " ++ toString i ++ " and " ++
          toString (i + 1))
      else contErr (i + 1) (s' :: rest)

/-- verifier.verify_trace: final-root consistency, hash chain, outputs
consistency, provenance shape, strict checks; replay is a no-op success
path.  Returns at the first failure, as the source does. -/
def verify_trace (sh : StepCore → String → String) (trace : Trace)
    (strict : Bool) (replay : Bool) : VerifyResult :=
  let meta := trace.meta
  let steps := trace.steps
  let expected_final := lastHashOr ZERO_HASH steps
  if meta.final_root ≠ expected_final then
    mkInvalid "final_root does not match last step hash" meta.final_root
      steps.length meta
  else
    match chainErr sh 0 ZERO_HASH steps with
    | some e => mkInvalid e expected_final steps.length meta
    | none =>
        if stepOutputs steps ≠ meta.outputs then
          mkInvalid "metadata outputs do not match step outputs"
            expected_final steps.length meta
        else
          match provErr meta.color_provenance with
          | some e => mkInvalid e expected_final steps.length meta
          | none =>
              match (if strict then
                      match idxErr 0 steps with
                      | some e => some e
                      | none => contErr 0 steps
                    else none) with
              | some e => mkInvalid e expected_final steps.length meta
              | none => mkValid expected_final steps.length meta

/- ------------------------------------------------------------------
   color_lang.palette (ColorPalette)
   ------------------------------------------------------------------ -/

/-- An RGB triple as handed to palette.match_color (components are the
8-bit channels of the raster, held as Int like every Python number
here). -/
structure RGB where
  r : Int
  g : Int
  b : Int
deriving DecidableEq, Repr

/-- color_lang.palette.ColorPalette.  The opcodes dict is an
insertion-ordered association list (Python dicts preserve insertion
order and from_dict keeps the parsed dict as-is); tolerance is the
palette's float tolerance, held exactly as a rational. -/
structure Palette where
  version : String
  tile_size : Nat
  opcodes : List (String × String)
  scan_order : String
  immediate_mode : String
  tolerance : ℚ
  fiducials : List (String × String)
deriving DecidableEq, Repr

/-- Uppercase hex digits of n (no padding), via Nat.toDigits 16 and
uppercasing, matching Python's {:X} for non-negative n. -/
def hexUpper (n : Nat) : String :=
  String.mk ((Nat.toDigits 16 n).map Char.toUpper)

/-- Python f-string {:02X}: uppercase hex padded to width 2.  Channel
values are 0..255 in every raster; negative values (never produced by
the decoder) keep Python's sign-then-digits shape. -/
def pyHex02 (n : Int) : String :=
  if n < 0 then "-" ++ hexUpper n.natAbs
  else
    let s := hexUpper n.toNat
    if s.length < 2 then "0" ++ s else s

/-- palette.ColorPalette.rgb_to_hex. -/
def rgb_to_hex (c : RGB) : String :=
  pyHex02 c.r ++ pyHex02 c.g ++ pyHex02 c.b

/-- Value of one hex digit (int(c, 16) accepts either case). -/
def hexVal (c : Char) : Nat :=
  if c.isDigit then c.toNat - 48
  else if 'a' ≤ c ∧ c ≤ 'f' then c.toNat - 87
  else if 'A' ≤ c ∧ c ≤ 'F' then c.toNat - 55
  else 0

/-- palette.ColorPalette.hex_to_rgb on the 6-hex-digit keys the palette
validation admits (other shapes, which from_dict rejects, fall back to
black). -/
def hex_to_rgb (s : String) : RGB :=
  match s.toList with
  | [a, b, c, d, e, f] =>
      { r := (16 * hexVal a + hexVal b : Nat),
        g := (16 * hexVal c + hexVal d : Nat),
        b := (16 * hexVal e + hexVal f : Nat) }
  | _ => { r := 0, g := 0, b := 0 }

/-- palette.ColorPalette._color_distance, squared: the source compares
math.sqrt of this value against tolerance and against the best distance;
since sqrt is strictly monotone on non-negatives, d <= tol (tol > 0 in
the scanning branch) is d^2 <= tol^2 and d < best is d^2 < best^2, so
the scan below carries squared distances and compares them exactly. -/
def color_distance_sq (c1 c2 : RGB) : Int :=
  (c1.r - c2.r) ^ 2 + (c1.g - c2.g) ^ 2 + (c1.b - c2.b) ^ 2

/-- The for-loop of match_color's tolerance branch: scan the entries in
dict iteration (= insertion) order, keeping (best_distance, best_match);
an entry replaces the best only when within tolerance AND strictly
closer (distance < best_distance), so the first of several tied entries
wins.  best = none is best_distance = inf. -/
def scanBest (tol : ℚ) (rgb : RGB) :
    List (String × String) → Option (Int × String × String) →
    Option (Int × String × String)
  | [], best => best
  | (phex, opc) :: rest, best =>
      match best with
      | none =>
          if (color_distance_sq rgb (hex_to_rgb phex) : ℚ) ≤ tol ^ 2 then
            scanBest tol rgb rest
              (some (color_distance_sq rgb (hex_to_rgb phex), opc, phex))
          else scanBest tol rgb rest none
      | some (bd, bo, bh) =>
          if (color_distance_sq rgb (hex_to_rgb phex) : ℚ) ≤ tol ^ 2 ∧
              color_distance_sq rgb (hex_to_rgb phex) < bd then
            scanBest tol rgb rest
              (some (color_distance_sq rgb (hex_to_rgb phex), opc, phex))
          else scanBest tol rgb rest (some (bd, bo, bh))

/-- palette.ColorPalette.match_color: exact lookup by rgb_to_hex first;
otherwise, when tolerance > 0, the tolerance scan; otherwise (or when
the scan finds nothing) the PaletteError. -/
def match_color (p : Palette) (rgb : RGB) : Except String (String × String) :=
  let rgb_hex := rgb_to_hex rgb
  match p.opcodes.lookup rgb_hex with
  | some opc => Except.ok (opc, rgb_hex)
  | none =>
      let best :=
        if 0 < p.tolerance then scanBest p.tolerance rgb p.opcodes none
        else none
      match best with
      | some (_, opc, phex) => Except.ok (opc, phex)
      | none => Except.error "No matching color within tolerance"

/- ------------------------------------------------------------------
   color_lang.decoder (PngDecoder)
   ------------------------------------------------------------------ -/

/-- The loaded raster: dimensions and the pixel function of the
RGB-converted image (PIL.Image is external; only size and getpixel are
consumed). -/
structure PImage where
  width : Nat
  height : Nat
  pix : Nat → Nat → RGB

/-- Number of elements of Python range(0, stop, step) for step > 0:
the ceiling of stop / step. -/
def pyRangeLen (stop step : Nat) : Nat := (stop + step - 1) / step

/-- Python range(0, stop, step) for step > 0. -/
def pyRange (stop step : Nat) : List Nat :=
  (List.range (pyRangeLen stop step)).map (fun k => k * step)

/-- decoder.PngDecoder.extract_tiles_and_sample_centers: iterate y in
range(0, height, T) then x in range(0, width, T); crop the tile clamped
to the image (right/bottom edges may truncate it), and sample the
cropped tile's centre pixel (tile.width // 2, tile.height // 2), i.e.
the absolute pixel (x + (right-x)/2, y + (bottom-y)/2).  Only the centre
pixel of each tile dict is consumed downstream, so the tile list is
modelled as the list of centre pixels; grid dimensions are the floor
divisions width // T and height // T. -/
def extract_tiles_and_sample_centers (img : PImage) (tile_size : Nat) :
    List RGB × Nat × Nat :=
  let grid_width := img.width / tile_size
  let grid_height := img.height / tile_size
  let tiles :=
    (pyRange img.height tile_size).flatMap (fun y =>
      (pyRange img.width tile_size).map (fun x =>
        let right := min (x + tile_size) img.width
        let bottom := min (y + tile_size) img.height
        img.pix (x + (right - x) / 2) (y + (bottom - y) / 2)))
  (tiles, grid_width, grid_height)

/-- decoder.PngDecoder.match_colors_to_opcodes: a palette match yields
its opcode, a PaletteError yields the None sentinel. -/
def match_colors_to_opcodes (p : Palette) (pixel : RGB) : Option String :=
  match match_color p pixel with
  | Except.ok (opc, _) => some opc
  | Except.error _ => none

/-- decoder.PngDecoder.decode_png after the image is loaded: sample the
tile centres and map them through the palette. -/
def decode_png (p : Palette) (img : PImage) :
    List (Option String) × Nat × Nat :=
  let e := extract_tiles_and_sample_centers img p.tile_size
  (e.1.map (match_colors_to_opcodes p), e.2.1, e.2.2)

/- ------------------------------------------------------------------
   dvc_core.program (Program.from_json_array) and lib.program_loader
   ------------------------------------------------------------------ -/

/-- One element of the program JSON array, as a typed view of the JSON
object: the values found at the keys "op", "arg" and "opcode" (none
when the key is absent; the loader only ever reads "op" and "arg"). -/
structure JsonInstrObj where
  op : Option String
  arg : Option String
  opcode : Option String
deriving DecidableEq, Repr

structure Program where
  instructions : List Instruction
deriving DecidableEq, Repr

/-- The loop of Program.from_json_array, carrying the index i used in
the error message: an object without an "op" key (the lowered
{opcode: NAME} spelling included) raises at its index; otherwise the
instruction is built from "op" and "arg" and validated. -/
def fromJsonAux : Nat → List JsonInstrObj → Except String (List Instruction)
  | _, [] => Except.ok []
  | i, obj :: rest =>
      match obj.op with
      | none => Except.error ("Invalid instruction at index " ++ toString i)
      | some opName =>
          let instr : Instruction := { op := opName, arg := obj.arg }
          match validate_instruction instr with
          | Except.error e => Except.error e
          | Except.ok _ =>
              match fromJsonAux (i + 1) rest with
              | Except.error e => Except.error e
              | Except.ok l => Except.ok (instr :: l)

/-- program.Program.from_json_array (lib.program_loader.load_program_json
is file reading plus an is-array check around this). -/
def from_json_array (arr : List JsonInstrObj) : Except String Program :=
  match fromJsonAux 0 arr with
  | Except.error e => Except.error e
  | Except.ok l => Except.ok { instructions := l }

/- ------------------------------------------------------------------
   dvc_core.bundle (DVCBundle.pack)
   ------------------------------------------------------------------ -/

/-- bundle.DVCBundle.pack's manifest_data dict (provenance and meta are
empty for a trace without color_provenance; the nested dict shapes are
flattened to one record).  created_at holds datetime.now().isoformat()
verbatim. -/
structure ManifestData where
  version : String
  created_at : String
  tool : String
  tool_version : String
  program_path : String
  program_sha256 : String
  trace_path : String
  trace_sha256 : String
  trace_final_root : String
  image_path : String
  image_sha256 : String
  palette_path : String
  palette_sha256 : String
  manifest_sha256 : Option String
deriving DecidableEq, Repr

/-- json.dump(manifest_data, indent=2) of the fixed manifest shape: a
fixed template with the field values spliced in insertion order; the
rendition is byte-faithful in what matters here, that created_at
appears verbatim in the rendered manifest. -/
def manifestJson (m : ManifestData) : String :=
  "\x7b\n  \"version\": \"" ++ m.version ++
  "\",\n  \"created_at\": \"" ++ m.created_at ++
  "\",\n  \"tool\": \"" ++ m.tool ++
  "\",\n  \"tool_version\": \"" ++ m.tool_version ++
  "\",\n  \"program\": \x7b\n    \"path\": \"" ++ m.program_path ++
  "\",\n    \"sha256\": \"" ++ m.program_sha256 ++
  "\"\n  \x7d,\n  \"trace\": \x7b\n    \"path\": \"" ++ m.trace_path ++
  "\",\n    \"sha256\": \"" ++ m.trace_sha256 ++
  "\",\n    \"final_root\": \"" ++ m.trace_final_root ++
  "\"\n  \x7d,\n  \"assets\": [\n    \x7b\n      \"path\": \"" ++ m.image_path ++
  "\",\n      \"sha256\": \"" ++ m.image_sha256 ++
  "\"\n    \x7d,\n    \x7b\n      \"path\": \"" ++ m.palette_path ++
  "\",\n      \"sha256\": \"" ++ m.palette_sha256 ++
  "\"\n    \x7d\n  ],\n  \"provenance\": \x7b\x7d,\n  \"meta\": \x7b\x7d" ++
  (match m.manifest_sha256 with
   | none => ""
   | some h => ",\n  \"sha256\": \"" ++ h ++ "\"") ++
  "\n\x7d"

/-- bundle.DVCBundle.pack on a trace without color_provenance, after
the output-collision check: builds manifest_data with each input file's
sha256 and the wall-clock created_at, hashes the rendered manifest,
rewrites it with its own hash, and emits the stored-ZIP entries in the
fixed order manifest, image asset, palette asset, program, trace (every
entry with the normalized 1980-01-01 metadata, so the archive bytes are
a function of exactly these entries).  sha is the SHA-256 hex function
over file bytes; now is datetime.now().isoformat(); file contents are
byte strings. -/
def DVCBundle.pack (sha : String → String) (now : String)
    (imageName imageBytes paletteName paletteBytes : String)
    (programName programBytes traceName traceBytes : String)
    (traceFinalRoot : String) : List (String × String) :=
  let m0 : ManifestData :=
    { version := "dvcf-v0.1", created_at := now, tool := "dvc-cli",
      tool_version := "0.1",
      program_path := "build/" ++ programName,
      program_sha256 := sha programBytes,
      trace_path := "trace/" ++ traceName,
      trace_sha256 := sha traceBytes,
      trace_final_root := traceFinalRoot,
      image_path := "assets/" ++ imageName,
      image_sha256 := sha imageBytes,
      palette_path := "assets/" ++ paletteName,
      palette_sha256 := sha paletteBytes,
      manifest_sha256 := none }
  let m1 := { m0 with manifest_sha256 := some (sha (manifestJson m0)) }
  [("manifest.json", manifestJson m1),
   ("assets/" ++ imageName, imageBytes),
   ("assets/" ++ paletteName, paletteBytes),
   ("build/" ++ programName, programBytes),
   ("trace/" ++ traceName, traceBytes)]

/- ------------------------------------------------------------------
   Concrete inputs for witnesses and counterexamples
   ------------------------------------------------------------------ -/

/-- A concrete stand-in hash function for closed evaluations (the
theorems hold for every sh). -/
def hashA : StepCore → String → String := fun _ prev => prev ++ "h"

/-- The arithmetic-halt program of the spec's scenario 1. -/
def progA : List Instruction :=
  [{ op := "PUSHI", arg := some "2" }, { op := "PUSHI", arg := some "3" },
   { op := "ADD", arg := none }, { op := "PRINT", arg := none },
   { op := "HALT", arg := none }]

/-- Two NOPs: still running after one step, for the step-limit witness. -/
def progB : List Instruction :=
  [{ op := "NOP", arg := none }, { op := "NOP", arg := none }]

/-- Palette for the tie-break counterexample: two entries equidistant
from the probe, inserted in descending hex order. -/
def palC : Palette :=
  { version := "palette-v0.1", tile_size := 16,
    opcodes := [("000002", "ADD"), ("000000", "SUB")],
    scan_order := "row-major", immediate_mode := "rgb-to-int",
    tolerance := 5, fiducials := [] }

/-- Palette for the tolerance-match witness (spec scenario 4). -/
def palW : Palette :=
  { version := "palette-v0.1", tile_size := 16,
    opcodes := [("FF0000", "PUSHI"), ("000000", "NOP")],
    scan_order := "row-major", immediate_mode := "rgb-to-int",
    tolerance := 5, fiducials := [] }

/-- Palette with tile size 2 for the tile-count counterexample. -/
def palC6 : Palette :=
  { version := "palette-v0.1", tile_size := 2,
    opcodes := [("000000", "NOP")],
    scan_order := "row-major", immediate_mode := "rgb-to-int",
    tolerance := 0, fiducials := [] }

/-- A 3x3 all-black image: dimensions not a multiple of the tile size. -/
def imgC6 : PImage :=
  { width := 3, height := 3, pix := fun _ _ => { r := 0, g := 0, b := 0 } }

/-- The initial VMState of vm.execute. -/
def initState : VMState :=
  { ip := 0, stack := [], outputs := [], status := Status.running }

/- ------------------------------------------------------------------
   Lemmas about one dispatch (execStep)
   ------------------------------------------------------------------ -/

/-- The three facts the loop invariants need about one dispatch, for
each arm: how outputs relate to the step's output field, that the
result status is faulted exactly when a fault string is attached
(from a running state), and that the ip moves at most one. -/
def StepFacts (st : VMState) (res : VMState × Option String × Option String) :
    Prop :=
  to_str_list res.1.outputs = to_str_list st.outputs ++ (res.2.1).toList ∧
  (st.status = Status.running →
    (res.1.status = Status.faulted ↔ (res.2.2).isSome = true)) ∧
  res.1.ip ≤ st.ip + 1

theorem stepFacts_faultRes (st : VMState) (stack : List Int) (msg : String) :
    StepFacts st (faultRes st stack msg) := by
  refine ⟨by simp [faultRes], fun _ => by simp [faultRes], by simp [faultRes]⟩

theorem stepFacts_nop (st : VMState) : StepFacts st (nopStep st) := by
  refine ⟨by simp [nopStep], fun h => by simp [nopStep, h], by simp [nopStep]⟩

theorem stepFacts_halt (st : VMState) : StepFacts st (haltStep st) := by
  refine ⟨by simp [haltStep], fun h => by simp [haltStep], by simp [haltStep]⟩

theorem stepFacts_pushi (arg : Option String) (st : VMState) :
    StepFacts st (pushiStep arg st) := by
  unfold pushiStep
  repeat' split
  · exact stepFacts_faultRes st st.stack ""
  · exact stepFacts_faultRes st st.stack _
  · exact ⟨by simp [to_str_list], fun h => by simp [h], by simp⟩

theorem stepFacts_pop (st : VMState) : StepFacts st (popStep st) := by
  unfold popStep
  repeat' split
  · exact stepFacts_faultRes st st.stack _
  · exact ⟨by simp [to_str_list], fun h => by simp [h], by simp⟩

theorem stepFacts_bin (f : Int → Int → Int) (st : VMState) :
    StepFacts st (binStep f st) := by
  unfold binStep
  repeat' split
  · exact stepFacts_faultRes st st.stack _
  · exact stepFacts_faultRes st _ _
  · exact ⟨by simp [to_str_list], fun h => by simp [h], by simp⟩

theorem stepFacts_div (st : VMState) : StepFacts st (divStep st) := by
  unfold divStep
  repeat' split
  · exact stepFacts_faultRes st st.stack _
  · exact stepFacts_faultRes st _ _
  · exact stepFacts_faultRes st _ _
  · exact ⟨by simp [to_str_list], fun h => by simp [h], by simp⟩

theorem stepFacts_print (st : VMState) : StepFacts st (printStep st) := by
  unfold printStep
  repeat' split
  · exact stepFacts_faultRes st st.stack _
  · exact ⟨by simp [to_str_list], fun h => by simp [h], by simp⟩

theorem execStep_facts (instr : Instruction) (st : VMState) :
    StepFacts st (execStep instr st) := by
  unfold execStep
  repeat' split
  · exact stepFacts_nop st
  · exact stepFacts_halt st
  · exact stepFacts_pushi instr.arg st
  · exact stepFacts_pop st
  · exact stepFacts_bin _ st
  · exact stepFacts_bin _ st
  · exact stepFacts_bin _ st
  · exact stepFacts_div st
  · exact stepFacts_print st
  · exact stepFacts_faultRes st st.stack _

theorem execStep_outputs (instr : Instruction) (st : VMState) :
    to_str_list (execStep instr st).1.outputs =
      to_str_list st.outputs ++ ((execStep instr st).2.1).toList :=
  (execStep_facts instr st).1

theorem execStep_status (instr : Instruction) (st : VMState)
    (h : st.status = Status.running) :
    ((execStep instr st).1.status = Status.faulted ↔
      ((execStep instr st).2.2).isSome = true) :=
  (execStep_facts instr st).2.1 h

theorem execStep_ip (instr : Instruction) (st : VMState) :
    (execStep instr st).1.ip ≤ st.ip + 1 :=
  (execStep_facts instr st).2.2

/- ------------------------------------------------------------------
   Lemmas about the while-loop (execLoop)
   ------------------------------------------------------------------ -/

theorem execLoop_acc (sh : StepCore → String → String)
    (prog : List Instruction) :
    ∀ (fuel i : Nat) (st : VMState) (prev : String) (fl : Bool)
      (acc : List TraceStep),
      execLoop sh prog fuel i st prev fl acc =
        ⟨acc ++ (execLoop sh prog fuel i st prev fl []).steps,
         (execLoop sh prog fuel i st prev fl []).state,
         (execLoop sh prog fuel i st prev fl []).prev,
         (execLoop sh prog fuel i st prev fl []).faulted,
         (execLoop sh prog fuel i st prev fl []).i⟩ := by
  intro fuel
  induction fuel with
  | zero => intro i st prev fl acc; simp [execLoop]
  | succ fuel ih =>
      intro i st prev fl acc
      by_cases hc : st.status = Status.running ∧ st.ip < prog.length
      · simp only [execLoop, dif_pos hc]
        rw [ih (i + 1) _ _ _ (acc ++ _), ih (i + 1) _ _ _ ([] ++ _)]
        simp
      · simp only [execLoop, dif_neg hc]
        simp

theorem stepEmit_fst (sh : StepCore → String → String) (instr : Instruction)
    (i : Nat) (st : VMState) (prev : String) :
    (stepEmit sh instr i st prev).1 = (execStep instr st).1 := rfl

theorem stepEmit_hash (sh : StepCore → String → String) (instr : Instruction)
    (i : Nat) (st : VMState) (prev : String) :
    (stepEmit sh instr i st prev).2.step_hash =
      sh (step_dict_of (stepEmit sh instr i st prev).2) prev := rfl

theorem stepEmit_index (sh : StepCore → String → String) (instr : Instruction)
    (i : Nat) (st : VMState) (prev : String) :
    (stepEmit sh instr i st prev).2.index = i := rfl

theorem stepEmit_output (sh : StepCore → String → String) (instr : Instruction)
    (i : Nat) (st : VMState) (prev : String) :
    (stepEmit sh instr i st prev).2.output = (execStep instr st).2.1 := rfl

theorem stepEmit_fault (sh : StepCore → String → String) (instr : Instruction)
    (i : Nat) (st : VMState) (prev : String) :
    (stepEmit sh instr i st prev).2.fault = (execStep instr st).2.2 := rfl

theorem stepEmit_sb (sh : StepCore → String → String) (instr : Instruction)
    (i : Nat) (st : VMState) (prev : String) :
    (stepEmit sh instr i st prev).2.stack_before = to_str_list st.stack := rfl

theorem stepEmit_sa (sh : StepCore → String → String) (instr : Instruction)
    (i : Nat) (st : VMState) (prev : String) :
    (stepEmit sh instr i st prev).2.stack_after =
      to_str_list (execStep instr st).1.stack := rfl

/-- The verifier's chain recomputation accepts every run of the loop:
each emitted step's hash is sh of its rebuilt core and the rolling
prev, by construction. -/
theorem execLoop_chain (sh : StepCore → String → String)
    (prog : List Instruction) :
    ∀ (fuel i : Nat) (st : VMState) (prev : String) (fl : Bool),
      chainErr sh i prev (execLoop sh prog fuel i st prev fl []).steps = none := by
  intro fuel
  induction fuel with
  | zero => intro i st prev fl; simp [execLoop, chainErr]
  | succ fuel ih =>
      intro i st prev fl
      by_cases hc : st.status = Status.running ∧ st.ip < prog.length
      · simp only [execLoop, dif_pos hc]
        rw [execLoop_acc sh prog fuel (i + 1)]
        simp only [List.nil_append]
        rw [List.cons_append]
        rw [chainErr]
        simp only [stepEmit_hash, ne_eq, not_true_eq_false, if_neg,
          not_false_eq_true]
        rw [← stepEmit_hash sh _ i st prev]
        exact ih (i + 1) _ _ _
      · simp only [execLoop, dif_neg hc]
        simp [chainErr]

/-- The rolling prev after the loop is the last emitted hash, or the
incoming prev when nothing was emitted. -/
theorem execLoop_prev (sh : StepCore → String → String)
    (prog : List Instruction) :
    ∀ (fuel i : Nat) (st : VMState) (prev : String) (fl : Bool),
      (execLoop sh prog fuel i st prev fl []).prev =
        lastHashOr prev (execLoop sh prog fuel i st prev fl []).steps := by
  intro fuel
  induction fuel with
  | zero => intro i st prev fl; simp [execLoop, lastHashOr]
  | succ fuel ih =>
      intro i st prev fl
      by_cases hc : st.status = Status.running ∧ st.ip < prog.length
      · simp only [execLoop, dif_pos hc]
        rw [execLoop_acc sh prog fuel (i + 1)]
        simp only [List.nil_append]
        rw [ih (i + 1)]
        unfold lastHashOr
        cases hrest : (execLoop sh prog fuel (i + 1) (stepEmit sh
            (prog.get ⟨st.ip, hc.2⟩) i st prev).1
            (stepEmit sh (prog.get ⟨st.ip, hc.2⟩) i st prev).2.step_hash
            (fl || ((stepEmit sh (prog.get ⟨st.ip, hc.2⟩) i st
              prev).2.fault).isSome) []).steps with
        | nil => simp
        | cons s rest =>
            rcases hgl : (s :: rest).getLast? with _ | x
            · rw [List.getLast?_eq_none_iff] at hgl
              exact absurd hgl (by simp)
            · simp [hgl]
      · simp only [execLoop, dif_neg hc]
        simp [lastHashOr]

/-- The outputs list of the final state is the incoming outputs followed
by the steps' recorded output values: PRINT appends to both in the same
iteration and nothing else touches either. -/
theorem execLoop_outputs (sh : StepCore → String → String)
    (prog : List Instruction) :
    ∀ (fuel i : Nat) (st : VMState) (prev : String) (fl : Bool),
      to_str_list (execLoop sh prog fuel i st prev fl []).state.outputs =
        to_str_list st.outputs ++
          stepOutputs (execLoop sh prog fuel i st prev fl []).steps := by
  intro fuel
  induction fuel with
  | zero => intro i st prev fl; simp [execLoop, stepOutputs]
  | succ fuel ih =>
      intro i st prev fl
      by_cases hc : st.status = Status.running ∧ st.ip < prog.length
      · simp only [execLoop, dif_pos hc]
        rw [execLoop_acc sh prog fuel (i + 1)]
        simp only [List.nil_append]
        rw [ih (i + 1)]
        rw [stepEmit_fst]
        rw [execStep_outputs]
        unfold stepOutputs
        rw [List.singleton_append, List.filterMap_cons, stepEmit_output]
        cases ho : (execStep (prog.get ⟨st.ip, hc.2⟩) st).2.1 with
        | none => simp [ho]
        | some v => simp [ho, List.append_assoc]
      · simp only [execLoop, dif_neg hc]
        simp [stepOutputs]

/-- Step indices are consecutive from the loop counter. -/
theorem execLoop_idx (sh : StepCore → String → String)
    (prog : List Instruction) :
    ∀ (fuel i : Nat) (st : VMState) (prev : String) (fl : Bool),
      idxErr i (execLoop sh prog fuel i st prev fl []).steps = none := by
  intro fuel
  induction fuel with
  | zero => intro i st prev fl; simp [execLoop, idxErr]
  | succ fuel ih =>
      intro i st prev fl
      by_cases hc : st.status = Status.running ∧ st.ip < prog.length
      · simp only [execLoop, dif_pos hc]
        rw [execLoop_acc sh prog fuel (i + 1)]
        simp only [List.nil_append]
        rw [List.cons_append]
        rw [idxErr]
        simp only [stepEmit_index, ne_eq, not_true_eq_false, if_neg,
          not_false_eq_true]
        exact ih (i + 1) _ _ _
      · simp only [execLoop, dif_neg hc]
        simp [idxErr]

/-- The first emitted step's stack_before is the stack at loop entry. -/
theorem execLoop_head_sb (sh : StepCore → String → String)
    (prog : List Instruction) :
    ∀ (fuel i : Nat) (st : VMState) (prev : String) (fl : Bool)
      (s : TraceStep),
      (execLoop sh prog fuel i st prev fl []).steps.head? = some s →
      s.stack_before = to_str_list st.stack := by
  intro fuel
  cases fuel with
  | zero => intro i st prev fl s h; simp [execLoop] at h
  | succ fuel =>
      intro i st prev fl s h
      by_cases hc : st.status = Status.running ∧ st.ip < prog.length
      · rw [execLoop, dif_pos hc] at h
        rw [execLoop_acc sh prog fuel (i + 1)] at h
        simp only [List.nil_append, List.cons_append, List.head?_cons,
          Option.some.injEq] at h
        rw [← h]
        exact stepEmit_sb sh _ i st prev
      · rw [execLoop, dif_neg hc] at h
        simp at h

/-- Adjacent emitted steps agree on the stack across the boundary:
stack_after of one iteration is the stack the next iteration reads. -/
theorem execLoop_cont (sh : StepCore → String → String)
    (prog : List Instruction) :
    ∀ (fuel i : Nat) (st : VMState) (prev : String) (fl : Bool) (j : Nat),
      contErr j (execLoop sh prog fuel i st prev fl []).steps = none := by
  intro fuel
  induction fuel with
  | zero => intro i st prev fl j; simp [execLoop, contErr]
  | succ fuel ih =>
      intro i st prev fl j
      by_cases hc : st.status = Status.running ∧ st.ip < prog.length
      · simp only [execLoop, dif_pos hc]
        rw [execLoop_acc sh prog fuel (i + 1)]
        simp only [List.nil_append]
        rw [List.cons_append]
        cases hrest : (execLoop sh prog fuel (i + 1) (stepEmit sh
            (prog.get ⟨st.ip, hc.2⟩) i st prev).1
            (stepEmit sh (prog.get ⟨st.ip, hc.2⟩) i st prev).2.step_hash
            (fl || ((stepEmit sh (prog.get ⟨st.ip, hc.2⟩) i st
              prev).2.fault).isSome) []).steps with
        | nil => simp [contErr]
        | cons s rest =>
            simp only [contErr]
            have hhead : s.stack_before =
                to_str_list (stepEmit sh (prog.get ⟨st.ip, hc.2⟩) i st
                  prev).1.stack := by
              apply execLoop_head_sb sh prog fuel (i + 1)
              rw [hrest]; rfl
            have hsa : (stepEmit sh (prog.get ⟨st.ip, hc.2⟩) i st
                prev).2.stack_after = s.stack_before := by
              rw [hhead, stepEmit_sa, stepEmit_fst]
            rw [if_neg (by simp only [ne_eq, not_not]; exact hsa)]
            have := ih (i + 1) (stepEmit sh (prog.get ⟨st.ip, hc.2⟩) i st
              prev).1 (stepEmit sh (prog.get ⟨st.ip, hc.2⟩) i st
              prev).2.step_hash
              (fl || ((stepEmit sh (prog.get ⟨st.ip, hc.2⟩) i st
                prev).2.fault).isSome) (j + 1)
            rw [hrest] at this
            exact this
      · simp only [execLoop, dif_neg hc]
        simp [contErr]

/-- The faulted flag tracks the faulted status through the loop. -/
theorem execLoop_fault_sync (sh : StepCore → String → String)
    (prog : List Instruction) :
    ∀ (fuel i : Nat) (st : VMState) (prev : String) (fl : Bool),
      (st.status = Status.faulted ↔ fl = true) →
      ((execLoop sh prog fuel i st prev fl []).state.status = Status.faulted ↔
        (execLoop sh prog fuel i st prev fl []).faulted = true) := by
  intro fuel
  induction fuel with
  | zero => intro i st prev fl h; simpa [execLoop] using h
  | succ fuel ih =>
      intro i st prev fl h
      by_cases hc : st.status = Status.running ∧ st.ip < prog.length
      · simp only [execLoop, dif_pos hc]
        rw [execLoop_acc sh prog fuel (i + 1)]
        simp only [List.nil_append]
        have hfl : fl = false := by
          cases fl with
          | false => rfl
          | true => exact absurd (h.mpr rfl) (by simp [hc.1])
        apply ih (i + 1)
        rw [stepEmit_fst, stepEmit_fault, hfl]
        simpa using execStep_status _ st hc.1
      · simp only [execLoop, dif_neg hc]
        exact h

/-- The loop counter advances exactly with the emitted steps. -/
theorem execLoop_count (sh : StepCore → String → String)
    (prog : List Instruction) :
    ∀ (fuel i : Nat) (st : VMState) (prev : String) (fl : Bool),
      (execLoop sh prog fuel i st prev fl []).i =
        i + (execLoop sh prog fuel i st prev fl []).steps.length := by
  intro fuel
  induction fuel with
  | zero => intro i st prev fl; simp [execLoop]
  | succ fuel ih =>
      intro i st prev fl
      by_cases hc : st.status = Status.running ∧ st.ip < prog.length
      · simp only [execLoop, dif_pos hc]
        rw [execLoop_acc sh prog fuel (i + 1)]
        simp only [List.nil_append, List.cons_append, ExecOut.mk.injEq]
        rw [ih (i + 1)]
        simp [Nat.add_comm, Nat.add_assoc, Nat.add_left_comm]
      · simp only [execLoop, dif_neg hc]
        simp

/-- The loop stops only on exhausted fuel or a false loop condition. -/
theorem execLoop_exit (sh : StepCore → String → String)
    (prog : List Instruction) :
    ∀ (fuel i : Nat) (st : VMState) (prev : String) (fl : Bool),
      (execLoop sh prog fuel i st prev fl []).steps.length = fuel ∨
        ¬((execLoop sh prog fuel i st prev fl []).state.status =
            Status.running ∧
          (execLoop sh prog fuel i st prev fl []).state.ip < prog.length) := by
  intro fuel
  induction fuel with
  | zero => intro i st prev fl; left; simp [execLoop]
  | succ fuel ih =>
      intro i st prev fl
      by_cases hc : st.status = Status.running ∧ st.ip < prog.length
      · simp only [execLoop, dif_pos hc]
        rw [execLoop_acc sh prog fuel (i + 1)]
        rcases ih (i + 1) (stepEmit sh (prog.get ⟨st.ip, hc.2⟩) i st prev).1
            (stepEmit sh (prog.get ⟨st.ip, hc.2⟩) i st prev).2.step_hash
            (fl || ((stepEmit sh (prog.get ⟨st.ip, hc.2⟩) i st
              prev).2.fault).isSome) with hl | hr
        · left; simp only [List.nil_append, List.singleton_append,
            List.length_cons]
          simpa using hl
        · right; simpa using hr
      · simp only [execLoop, dif_neg hc]
        right; simpa using hc

/-- The ip never passes the end of the program. -/
theorem execLoop_ip_le (sh : StepCore → String → String)
    (prog : List Instruction) :
    ∀ (fuel i : Nat) (st : VMState) (prev : String) (fl : Bool),
      st.ip ≤ prog.length →
      (execLoop sh prog fuel i st prev fl []).state.ip ≤ prog.length := by
  intro fuel
  induction fuel with
  | zero => intro i st prev fl h; simpa [execLoop] using h
  | succ fuel ih =>
      intro i st prev fl h
      by_cases hc : st.status = Status.running ∧ st.ip < prog.length
      · simp only [execLoop, dif_pos hc]
        rw [execLoop_acc sh prog fuel (i + 1)]
        simp only [List.nil_append]
        apply ih (i + 1)
        rw [stepEmit_fst]
        exact le_trans (execStep_ip _ st) hc.2
      · simp only [execLoop, dif_neg hc]
        exact h

/- ------------------------------------------------------------------
   From the loop to the built trace (execute)
   ------------------------------------------------------------------ -/

theorem execute_steps (sh : StepCore → String → String) (now1 now2 : String)
    (p : List Instruction) (L : Nat) (dm : Bool) :
    (execute sh now1 now2 p L dm).steps =
      (execLoop sh p L 0 initState ZERO_HASH false []).steps := rfl

theorem execute_final_root (sh : StepCore → String → String)
    (now1 now2 : String) (p : List Instruction) (L : Nat) (dm : Bool) :
    (execute sh now1 now2 p L dm).meta.final_root =
      (execLoop sh p L 0 initState ZERO_HASH false []).prev := rfl

theorem execute_meta_outputs (sh : StepCore → String → String)
    (now1 now2 : String) (p : List Instruction) (L : Nat) (dm : Bool) :
    (execute sh now1 now2 p L dm).meta.outputs =
      to_str_list (execLoop sh p L 0 initState ZERO_HASH false
        []).state.outputs := rfl

theorem execute_meta_cp (sh : StepCore → String → String)
    (now1 now2 : String) (p : List Instruction) (L : Nat) (dm : Bool) :
    (execute sh now1 now2 p L dm).meta.color_provenance = none := rfl

theorem execute_meta_faulted (sh : StepCore → String → String)
    (now1 now2 : String) (p : List Instruction) (L : Nat) (dm : Bool) :
    (execute sh now1 now2 p L dm).meta.faulted =
      (execLoop sh p L 0 initState ZERO_HASH false []).faulted := rfl

theorem execute_meta_halted (sh : StepCore → String → String)
    (now1 now2 : String) (p : List Instruction) (L : Nat) (dm : Bool) :
    (execute sh now1 now2 p L dm).meta.halted =
      (match (if L ≤ (execLoop sh p L 0 initState ZERO_HASH false []).i ∧
            (execLoop sh p L 0 initState ZERO_HASH false []).state.status =
              Status.running
          then Status.halted
          else (execLoop sh p L 0 initState ZERO_HASH false []).state.status)
        with
       | Status.halted => true
       | _ => false) := rfl

/-- The builder's faulted flag and final state agree on faultedness
(instance of the loop invariant at the initial state). -/
theorem execute_fault_agree (sh : StepCore → String → String)
    (p : List Instruction) (L : Nat) :
    ((execLoop sh p L 0 initState ZERO_HASH false []).state.status =
        Status.faulted ↔
      (execLoop sh p L 0 initState ZERO_HASH false []).faulted = true) := by
  apply execLoop_fault_sync
  simp [initState]

/-- Every trace built by execute passes every check of verify_trace, in
either mode: the core correctness lemma behind C1 and C9. -/
theorem verify_execute_eq_valid (sh : StepCore → String → String)
    (now1 now2 : String) (p : List Instruction) (L : Nat) (dm : Bool)
    (strict : Bool) :
    verify_trace sh (execute sh now1 now2 p L dm) strict false =
      mkValid (lastHashOr ZERO_HASH (execute sh now1 now2 p L dm).steps)
        (execute sh now1 now2 p L dm).steps.length
        (execute sh now1 now2 p L dm).meta := by
  show (let meta := (execute sh now1 now2 p L dm).meta;
    let steps := (execute sh now1 now2 p L dm).steps;
    let expected_final := lastHashOr ZERO_HASH steps;
    if meta.final_root ≠ expected_final then
      mkInvalid "final_root does not match last step hash" meta.final_root
        steps.length meta
    else
      match chainErr sh 0 ZERO_HASH steps with
      | some e => mkInvalid e expected_final steps.length meta
      | none =>
        if stepOutputs steps ≠ meta.outputs then
          mkInvalid "metadata outputs do not match step outputs"
            expected_final steps.length meta
        else
          match provErr meta.color_provenance with
          | some e => mkInvalid e expected_final steps.length meta
          | none =>
            match (if strict then
                    match idxErr 0 steps with
                    | some e => some e
                    | none => contErr 0 steps
                  else none) with
            | some e => mkInvalid e expected_final steps.length meta
            | none => mkValid expected_final steps.length meta) = _
  simp only []
  rw [execute_steps, execute_final_root, execute_meta_outputs,
    execute_meta_cp]
  rw [execLoop_prev sh p L 0 initState ZERO_HASH false]
  rw [if_neg (by simp)]
  rw [execLoop_chain sh p L 0 initState ZERO_HASH false]
  rw [execLoop_outputs sh p L 0 initState ZERO_HASH false]
  rw [if_neg (by simp [initState, to_str_list])]
  rw [execLoop_idx sh p L 0 initState ZERO_HASH false]
  rw [execLoop_cont sh p L 0 initState ZERO_HASH false 0]
  cases strict <;> simp [provErr, execute_steps]

/- ------------------------------------------------------------------
   Claim theorems
   ------------------------------------------------------------------ -/

/-- C1: for every validated program P and positive step limit L, the
trace returned by execute(P, L) passes verify_trace with status
"valid", and its meta.final_root equals the step_hash of the last
emitted step, or ZERO_HASH (the 64-character all-zeros string) when no
steps were emitted.  Proved for every hash function sh, the real
sha256 included. -/
theorem execute_trace_verifies (sh : StepCore → String → String)
    (now1 now2 : String) (p : List Instruction) (L : Nat) (dm : Bool)
    (hv : validProgramB p = true) (hL : 0 < L) :
    (verify_trace sh (execute sh now1 now2 p L dm) false false).status =
      "valid" ∧
    ((execute sh now1 now2 p L dm).steps = [] →
      (execute sh now1 now2 p L dm).meta.final_root = ZERO_HASH) ∧
    (∀ s, (execute sh now1 now2 p L dm).steps.getLast? = some s →
      (execute sh now1 now2 p L dm).meta.final_root = s.step_hash) := by
  refine ⟨?_, ?_, ?_⟩
  · rw [verify_execute_eq_valid]
    rfl
  · intro h
    have h' : (execLoop sh p L 0 initState ZERO_HASH false []).steps = [] := h
    rw [execute_final_root, execLoop_prev sh p L 0 initState ZERO_HASH false,
      h']
    rfl
  · intro s hs
    have hs' : (execLoop sh p L 0 initState ZERO_HASH false
        []).steps.getLast? = some s := hs
    rw [execute_final_root, execLoop_prev sh p L 0 initState ZERO_HASH false]
    unfold lastHashOr
    rw [hs']

/-- C1 witness: the arithmetic-halt program at limit 10. -/
theorem execute_trace_verifies_witness :
    validProgramB progA = true ∧ 0 < 10 ∧
    ((verify_trace hashA (execute hashA "t1" "t2" progA 10 false) false
        false).status = "valid" ∧
      ((execute hashA "t1" "t2" progA 10 false).steps = [] →
        (execute hashA "t1" "t2" progA 10 false).meta.final_root =
          ZERO_HASH) ∧
      (∀ s, (execute hashA "t1" "t2" progA 10 false).steps.getLast? =
          some s →
        (execute hashA "t1" "t2" progA 10 false).meta.final_root =
          s.step_hash)) :=
  ⟨by decide, by decide,
   execute_trace_verifies hashA "t1" "t2" progA 10 false (by decide)
     (by decide)⟩

/-- C9: every trace produced by execute satisfies the strict-mode
invariants without being asked for them: the step indices are
0,1,2,... (idxErr finds no mismatch) and adjacent steps agree on the
stack across the boundary (contErr finds no discontinuity); hence
verify_trace with strict=true also returns "valid" on every
builder-produced trace. -/
theorem execute_trace_strict_invariants (sh : StepCore → String → String)
    (now1 now2 : String) (p : List Instruction) (L : Nat) (dm : Bool) :
    idxErr 0 (execute sh now1 now2 p L dm).steps = none ∧
    contErr 0 (execute sh now1 now2 p L dm).steps = none ∧
    (verify_trace sh (execute sh now1 now2 p L dm) true false).status =
      "valid" := by
  refine ⟨?_, ?_, ?_⟩
  · rw [execute_steps]
    exact execLoop_idx sh p L 0 initState ZERO_HASH false
  · rw [execute_steps]
    exact execLoop_cont sh p L 0 initState ZERO_HASH false 0
  · rw [verify_execute_eq_valid]
    rfl

/-- C7: for every program and step limit L, if the loop emits L steps
and the VM is still running, the built trace reports halted=true and
faulted=false (the graceful limit, not a fault), and meta.final_root
is the L-th (last) emitted step's step_hash. -/
theorem step_limit_graceful_halt (sh : StepCore → String → String)
    (now1 now2 : String) (p : List Instruction) (L : Nat) (dm : Bool)
    (h1 : (execLoop sh p L 0 initState ZERO_HASH false []).state.status =
      Status.running)
    (h2 : (execLoop sh p L 0 initState ZERO_HASH false []).steps.length = L)
    (h3 : 0 < L) :
    (execute sh now1 now2 p L dm).meta.halted = true ∧
    (execute sh now1 now2 p L dm).meta.faulted = false ∧
    ((execLoop sh p L 0 initState ZERO_HASH false
        []).steps.getLast?).map (fun s => s.step_hash) =
      some ((execute sh now1 now2 p L dm).meta.final_root) := by
  refine ⟨?_, ?_, ?_⟩
  · rw [execute_meta_halted]
    have hi : L ≤ (execLoop sh p L 0 initState ZERO_HASH false []).i := by
      rw [execLoop_count sh p L 0 initState ZERO_HASH false, h2]
      simp
    rw [if_pos ⟨hi, h1⟩]
  · rw [execute_meta_faulted]
    cases hf : (execLoop sh p L 0 initState ZERO_HASH false []).faulted
    · rfl
    · have hst := (execute_fault_agree sh p L).mpr hf
      rw [h1] at hst
      exact absurd hst (by simp)
  · cases hgl : (execLoop sh p L 0 initState ZERO_HASH false
        []).steps.getLast? with
    | none =>
        rw [List.getLast?_eq_none_iff] at hgl
        rw [hgl] at h2
        simp at h2
        omega
    | some s =>
        rw [execute_final_root, execLoop_prev sh p L 0 initState ZERO_HASH
          false]
        unfold lastHashOr
        rw [hgl]
        rfl

/-- C7 witness: two NOPs at step limit 1 emit exactly one step with
the VM still running. -/
theorem step_limit_graceful_halt_witness :
    (execLoop hashA progB 1 0 initState ZERO_HASH false []).state.status =
      Status.running ∧
    (execLoop hashA progB 1 0 initState ZERO_HASH false []).steps.length =
      1 ∧
    0 < 1 ∧
    ((execute hashA "t1" "t2" progB 1 false).meta.halted = true ∧
      (execute hashA "t1" "t2" progB 1 false).meta.faulted = false ∧
      ((execLoop hashA progB 1 0 initState ZERO_HASH false
          []).steps.getLast?).map (fun s => s.step_hash) =
        some ((execute hashA "t1" "t2" progB 1 false).meta.final_root)) :=
  ⟨by decide, by decide, by decide,
   step_limit_graceful_halt hashA "t1" "t2" progB 1 false (by decide)
     (by decide) (by decide)⟩

/-- C10: for every program whose loop exits still running within the
step budget — which happens exactly when ip has run off the end of the
program — the built trace reports halted=false and faulted=false, and
the final ip equals the program length.  (The empty program is the
witness's instance, with zero steps and an all-zeros final_root.) -/
theorem run_off_end_not_halted (sh : StepCore → String → String)
    (now1 now2 : String) (p : List Instruction) (L : Nat) (dm : Bool)
    (h1 : (execLoop sh p L 0 initState ZERO_HASH false []).state.status =
      Status.running)
    (h2 : (execLoop sh p L 0 initState ZERO_HASH false []).steps.length < L) :
    (execute sh now1 now2 p L dm).meta.halted = false ∧
    (execute sh now1 now2 p L dm).meta.faulted = false ∧
    (execLoop sh p L 0 initState ZERO_HASH false []).state.ip = p.length := by
  refine ⟨?_, ?_, ?_⟩
  · rw [execute_meta_halted]
    have hi : ¬(L ≤ (execLoop sh p L 0 initState ZERO_HASH false []).i) := by
      rw [execLoop_count sh p L 0 initState ZERO_HASH false]
      omega
    rw [if_neg (by intro hcon; exact hi hcon.1)]
    rw [h1]
  · rw [execute_meta_faulted]
    cases hf : (execLoop sh p L 0 initState ZERO_HASH false []).faulted
    · rfl
    · have hst := (execute_fault_agree sh p L).mpr hf
      rw [h1] at hst
      exact absurd hst (by simp)
  · rcases execLoop_exit sh p L 0 initState ZERO_HASH false with he | he
    · omega
    · have hip : ¬((execLoop sh p L 0 initState ZERO_HASH false
          []).state.ip < p.length) := fun hlt => he ⟨h1, hlt⟩
      have hle := execLoop_ip_le sh p L 0 initState ZERO_HASH false
        (by simp [initState])
      omega

/-- C10 witness: the empty program at limit 5 emits zero steps, stays
running, and its trace has the all-zeros final_root. -/
theorem run_off_end_not_halted_witness :
    (execLoop hashA [] 5 0 initState ZERO_HASH false []).state.status =
      Status.running ∧
    (execLoop hashA [] 5 0 initState ZERO_HASH false []).steps.length < 5 ∧
    ((execute hashA "t1" "t2" [] 5 false).meta.halted = false ∧
      (execute hashA "t1" "t2" [] 5 false).meta.faulted = false ∧
      (execLoop hashA [] 5 0 initState ZERO_HASH false []).state.ip =
        ([] : List Instruction).length) ∧
    (execute hashA "t1" "t2" [] 5 false).steps = [] ∧
    (execute hashA "t1" "t2" [] 5 false).meta.final_root = ZERO_HASH :=
  ⟨by decide, by decide,
   run_off_end_not_halted hashA "t1" "t2" [] 5 false (by decide) (by decide),
   by decide, by decide⟩

/-- C4 (code bug evaluation): a program consisting of the reserved
color opcode RED_OP — which validate_instruction accepts as a known
opcode — faults at step 0 with "unknown opcode: RED_OP" instead of
behaving as NOP: one step is emitted, meta.faulted is true and
meta.halted is false. -/
theorem red_op_dispatch_faults :
    validate_instruction { op := "RED_OP", arg := none } = Except.ok () ∧
    (execute hashA "t1" "t2" [{ op := "RED_OP", arg := none }] 10
        false).steps.map (fun s => s.fault) =
      [some "unknown opcode: RED_OP"] ∧
    (execute hashA "t1" "t2" [{ op := "RED_OP", arg := none }] 10
        false).meta.faulted = true ∧
    (execute hashA "t1" "t2" [{ op := "RED_OP", arg := none }] 10
        false).meta.halted = false := by
  refine ⟨by rfl, by decide, by decide, by decide⟩

/-- C2 (code bug evaluation): packing the same four input files at two
different wall-clock readings produces different archives, because
datetime.now().isoformat() is embedded in the manifest (the
deterministic_meta parameter of pack is accepted but never used). -/
theorem pack_depends_on_wall_clock :
    DVCBundle.pack (fun s => s) "2025-01-01T00:00:00.000001" "img.png"
        "IMGBYTES" "palette.json" "PALBYTES" "program.json" "PRGBYTES"
        "trace.json" "TRCBYTES" "root0" ≠
      DVCBundle.pack (fun s => s) "2025-01-01T00:00:00.000002" "img.png"
        "IMGBYTES" "palette.json" "PALBYTES" "program.json" "PRGBYTES"
        "trace.json" "TRCBYTES" "root0" := by
  decide

/- ------------------------------------------------------------------
   Palette scan characterization (for C5)
   ------------------------------------------------------------------ -/

/-- The tolerance scan started from a current best (bd, bo, bh) always
returns a best; the result is either the incoming best, with nothing
in the remaining list strictly better, or an entry of the list that is
within tolerance, strictly better than the incoming best, strictly
better than every within-tolerance entry before it, and at least as
good as every within-tolerance entry after it. -/
theorem scanBest_some_spec (tol : ℚ) (rgb : RGB) :
    ∀ (l : List (String × String)) (bd : Int) (bo bh : String),
      ∃ d opc hx,
        scanBest tol rgb l (some (bd, bo, bh)) = some (d, opc, hx) ∧
        (((d, opc, hx) = (bd, bo, bh) ∧
            ∀ pr ∈ l,
              ((color_distance_sq rgb (hex_to_rgb pr.1) : ℚ) ≤ tol ^ 2) →
              bd ≤ color_distance_sq rgb (hex_to_rgb pr.1)) ∨
          (∃ l1 l2, l = l1 ++ (hx, opc) :: l2 ∧
            d = color_distance_sq rgb (hex_to_rgb hx) ∧
            ((d : ℚ) ≤ tol ^ 2) ∧ d < bd ∧
            (∀ pr ∈ l1,
              ((color_distance_sq rgb (hex_to_rgb pr.1) : ℚ) ≤ tol ^ 2) →
              d < color_distance_sq rgb (hex_to_rgb pr.1)) ∧
            (∀ pr ∈ l2,
              ((color_distance_sq rgb (hex_to_rgb pr.1) : ℚ) ≤ tol ^ 2) →
              d ≤ color_distance_sq rgb (hex_to_rgb pr.1)))) := by
  intro l
  induction l with
  | nil =>
      intro bd bo bh
      exact ⟨bd, bo, bh, rfl, Or.inl ⟨rfl, by simp⟩⟩
  | cons e rest ih =>
      intro bd bo bh
      obtain ⟨phh, poo⟩ := e
      by_cases hcond : (color_distance_sq rgb (hex_to_rgb phh) : ℚ) ≤
          tol ^ 2 ∧ color_distance_sq rgb (hex_to_rgb phh) < bd
      · obtain ⟨d, opc, hx, heq, hcase⟩ :=
          ih (color_distance_sq rgb (hex_to_rgb phh)) poo phh
        refine ⟨d, opc, hx, ?_, ?_⟩
        · simp only [scanBest]
          rw [if_pos hcond]
          exact heq
        · rcases hcase with ⟨htriple, hall⟩ |
            ⟨r1, r2, hsplit, hd, hdtol, hdlt, h1, h2⟩
          · simp only [Prod.mk.injEq] at htriple
            obtain ⟨hd1, ho1, hh1⟩ := htriple
            right
            refine ⟨[], rest, by simp [hh1, ho1], ?_, ?_, ?_, by simp, ?_⟩
            · rw [hd1, hh1]
            · rw [hd1]; exact hcond.1
            · rw [hd1]; exact hcond.2
            · intro pr hpr hw
              rw [hd1]
              exact hall pr hpr hw
          · right
            refine ⟨(phh, poo) :: r1, r2, by simp [hsplit], hd, hdtol,
              lt_trans hdlt hcond.2, ?_, h2⟩
            intro pr hpr hw
            rcases List.mem_cons.mp hpr with hpr | hpr
            · subst hpr
              exact hdlt
            · exact h1 pr hpr hw
      · obtain ⟨d, opc, hx, heq, hcase⟩ := ih bd bo bh
        refine ⟨d, opc, hx, ?_, ?_⟩
        · simp only [scanBest]
          rw [if_neg hcond]
          exact heq
        · rcases hcase with ⟨htriple, hall⟩ |
            ⟨r1, r2, hsplit, hd, hdtol, hdlt, h1, h2⟩
          · left
            refine ⟨htriple, ?_⟩
            intro pr hpr hw
            rcases List.mem_cons.mp hpr with hpr | hpr
            · subst hpr
              by_contra hlt
              push_neg at hlt
              exact hcond ⟨hw, hlt⟩
            · exact hall pr hpr hw
          · right
            refine ⟨(phh, poo) :: r1, r2, by simp [hsplit], hd, hdtol, hdlt,
              ?_, h2⟩
            intro pr hpr hw
            rcases List.mem_cons.mp hpr with hpr | hpr
            · subst hpr
              have hble : bd ≤ color_distance_sq rgb (hex_to_rgb phh) := by
                by_contra hlt
                push_neg at hlt
                exact hcond ⟨hw, hlt⟩
              exact lt_of_lt_of_le hdlt hble
            · exact h1 pr hpr hw

/-- The tolerance scan started from no best either finds nothing (and
then nothing in the list is within tolerance) or returns an entry of
the list that is within tolerance, strictly closer than every
within-tolerance entry before it, and at least as close as every
within-tolerance entry after it: the minimum with ties resolved to the
earliest entry in iteration (= insertion) order. -/
theorem scanBest_none_spec (tol : ℚ) (rgb : RGB) :
    ∀ (l : List (String × String)),
      (scanBest tol rgb l none = none ∧
        ∀ pr ∈ l,
          ¬((color_distance_sq rgb (hex_to_rgb pr.1) : ℚ) ≤ tol ^ 2)) ∨
      (∃ d opc hx l1 l2,
        scanBest tol rgb l none = some (d, opc, hx) ∧
        l = l1 ++ (hx, opc) :: l2 ∧
        d = color_distance_sq rgb (hex_to_rgb hx) ∧ ((d : ℚ) ≤ tol ^ 2) ∧
        (∀ pr ∈ l1,
          ((color_distance_sq rgb (hex_to_rgb pr.1) : ℚ) ≤ tol ^ 2) →
          d < color_distance_sq rgb (hex_to_rgb pr.1)) ∧
        (∀ pr ∈ l2,
          ((color_distance_sq rgb (hex_to_rgb pr.1) : ℚ) ≤ tol ^ 2) →
          d ≤ color_distance_sq rgb (hex_to_rgb pr.1))) := by
  intro l
  induction l with
  | nil => left; exact ⟨rfl, by simp⟩
  | cons e rest ih =>
      obtain ⟨phh, poo⟩ := e
      by_cases hcond : (color_distance_sq rgb (hex_to_rgb phh) : ℚ) ≤ tol ^ 2
      · right
        obtain ⟨d, opc, hx, heq, hcase⟩ := scanBest_some_spec tol rgb rest
          (color_distance_sq rgb (hex_to_rgb phh)) poo phh
        refine ⟨d, opc, hx, ?_⟩
        rcases hcase with ⟨htriple, hall⟩ |
          ⟨r1, r2, hsplit, hd, hdtol, hdlt, h1, h2⟩
        · simp only [Prod.mk.injEq] at htriple
          obtain ⟨hd1, ho1, hh1⟩ := htriple
          refine ⟨[], rest, ?_, by simp [hh1, ho1], by rw [hd1, hh1],
            by rw [hd1]; exact hcond, by simp, ?_⟩
          · simp only [scanBest]
            rw [if_pos hcond]
            exact heq
          · intro pr hpr hw
            rw [hd1]
            exact hall pr hpr hw
        · refine ⟨(phh, poo) :: r1, r2, ?_, by simp [hsplit], hd, hdtol,
            ?_, h2⟩
          · simp only [scanBest]
            rw [if_pos hcond]
            exact heq
          · intro pr hpr hw
            rcases List.mem_cons.mp hpr with hpr | hpr
            · subst hpr
              exact hdlt
            · exact h1 pr hpr hw
      · rcases ih with ⟨hnone, hall⟩ | ⟨d, opc, hx, l1, l2, heq, hsplit,
          hd, hdtol, h1, h2⟩
        · left
          refine ⟨?_, ?_⟩
          · simp only [scanBest]
            rw [if_neg hcond]
            exact hnone
          · intro pr hpr
            rcases List.mem_cons.mp hpr with hpr | hpr
            · subst hpr
              exact hcond
            · exact hall pr hpr
        · right
          refine ⟨d, opc, hx, (phh, poo) :: l1, l2, ?_, by simp [hsplit],
            hd, hdtol, ?_, h2⟩
          · simp only [scanBest]
            rw [if_neg hcond]
            exact heq
          · intro pr hpr hw
            rcases List.mem_cons.mp hpr with hpr | hpr
            · subst hpr
              exact absurd hw hcond
            · exact h1 pr hpr hw

/-- C5 counterexample: palC holds two entries tied at squared distance
1 from the probe (0,0,1), inserted in descending hex order; the scan
returns the first inserted entry "000002", not the hex-ascending
winner "000000", so the claimed sorted-hex-key tie-break does not hold. -/
theorem match_color_tie_insertion_order :
    palC.opcodes.lookup (rgb_to_hex { r := 0, g := 0, b := 1 }) = none ∧
    0 < palC.tolerance ∧
    color_distance_sq { r := 0, g := 0, b := 1 } (hex_to_rgb "000002") =
      color_distance_sq { r := 0, g := 0, b := 1 } (hex_to_rgb "000000") ∧
    "000000".toList < "000002".toList ∧
    match_color palC { r := 0, g := 0, b := 1 } =
      Except.ok ("ADD", "000002") := by
  refine ⟨by decide, by decide, by decide, by decide, by rfl⟩

/-- C5 (amended): for every RGB with no exact palette hit and
tolerance > 0, a successful match returns an entry within tolerance at
minimum Euclidean distance among the within-tolerance entries; when
several entries are at the minimum distance, the one earliest in the
palette's iteration (= insertion) order is returned — the entries are
not sorted by hex-key.  (Squared distances compare exactly as the
source's sqrt distances do.) -/
theorem match_color_min_insertion_tiebreak (p : Palette) (rgb : RGB)
    (hex : p.opcodes.lookup (rgb_to_hex rgb) = none)
    (htol : 0 < p.tolerance)
    (opc phex : String)
    (hm : match_color p rgb = Except.ok (opc, phex)) :
    ∃ l1 l2, p.opcodes = l1 ++ (phex, opc) :: l2 ∧
      ((color_distance_sq rgb (hex_to_rgb phex) : ℚ) ≤ p.tolerance ^ 2) ∧
      (∀ pr ∈ l1,
        ((color_distance_sq rgb (hex_to_rgb pr.1) : ℚ) ≤ p.tolerance ^ 2) →
        color_distance_sq rgb (hex_to_rgb phex) <
          color_distance_sq rgb (hex_to_rgb pr.1)) ∧
      (∀ pr ∈ l2,
        ((color_distance_sq rgb (hex_to_rgb pr.1) : ℚ) ≤ p.tolerance ^ 2) →
        color_distance_sq rgb (hex_to_rgb phex) ≤
          color_distance_sq rgb (hex_to_rgb pr.1)) := by
  unfold match_color at hm
  simp only [hex, if_pos htol] at hm
  rcases scanBest_none_spec p.tolerance rgb p.opcodes with ⟨hnone, _⟩ |
    ⟨d, opc', hx, l1, l2, heq, hsplit, hd, hdtol, h1, h2⟩
  · rw [hnone] at hm
    simp at hm
  · rw [heq] at hm
    simp only [Except.ok.injEq, Prod.mk.injEq] at hm
    obtain ⟨ho, hh⟩ := hm
    subst ho
    subst hh
    subst hd
    exact ⟨l1, l2, hsplit, hdtol, h1, h2⟩

/-- C5 witness: the tolerance-match scenario, RGB (252,2,2) against a
palette holding FF0000 and 000000 at tolerance 5. -/
theorem match_color_min_insertion_tiebreak_witness :
    palW.opcodes.lookup (rgb_to_hex { r := 252, g := 2, b := 2 }) = none ∧
    0 < palW.tolerance ∧
    match_color palW { r := 252, g := 2, b := 2 } =
      Except.ok ("PUSHI", "FF0000") ∧
    (∃ l1 l2, palW.opcodes = l1 ++ ("FF0000", "PUSHI") :: l2 ∧
      ((color_distance_sq { r := 252, g := 2, b := 2 }
          (hex_to_rgb "FF0000") : ℚ) ≤ palW.tolerance ^ 2) ∧
      (∀ pr ∈ l1,
        ((color_distance_sq { r := 252, g := 2, b := 2 }
            (hex_to_rgb pr.1) : ℚ) ≤ palW.tolerance ^ 2) →
        color_distance_sq { r := 252, g := 2, b := 2 }
            (hex_to_rgb "FF0000") <
          color_distance_sq { r := 252, g := 2, b := 2 }
            (hex_to_rgb pr.1)) ∧
      (∀ pr ∈ l2,
        ((color_distance_sq { r := 252, g := 2, b := 2 }
            (hex_to_rgb pr.1) : ℚ) ≤ palW.tolerance ^ 2) →
        color_distance_sq { r := 252, g := 2, b := 2 }
            (hex_to_rgb "FF0000") ≤
          color_distance_sq { r := 252, g := 2, b := 2 }
            (hex_to_rgb pr.1))) :=
  ⟨by decide, by decide, by rfl,
   match_color_min_insertion_tiebreak palW { r := 252, g := 2, b := 2 }
     (by decide) (by decide) "PUSHI" "FF0000" (by rfl)⟩

/- ------------------------------------------------------------------
   Decoder tile count (for C6)
   ------------------------------------------------------------------ -/

theorem length_flatMap_map {α β γ : Type} (ys : List α) (xs : List β)
    (g : α → β → γ) :
    (ys.flatMap (fun y => xs.map (g y))).length = ys.length * xs.length := by
  induction ys with
  | nil => simp
  | cons y ys ih =>
      simp [List.flatMap_cons, ih, Nat.succ_mul, Nat.add_comm]

/-- C6 counterexample: a 3x3 image at tile size 2 yields 4 opcodes
(ceil(3/2) * ceil(3/2)) while the claimed floor count
(3//2)*(3//2) = 1 and the returned grid is 1x1: the opcode count is
not (H//T)*(W//T) and does not equal grid_width * grid_height. -/
theorem decode_png_partial_tile_count :
    (decode_png palC6 imgC6).1.length = 4 ∧
    (decode_png palC6 imgC6).2.1 = 1 ∧
    (decode_png palC6 imgC6).2.2 = 1 ∧
    imgC6.height / palC6.tile_size * (imgC6.width / palC6.tile_size) = 1 ∧
    (4 : Nat) ≠ 1 := by
  refine ⟨by decide, by decide, by decide, by decide, by decide⟩

/-- C6 (amended): for an H-pixel-high, W-pixel-wide image decoded with
tile size T > 0, the decoder produces exactly ceil(H/T) * ceil(W/T)
opcodes — one per row-major tile, truncated edge tiles included —
while the returned grid is the floor pair (W//T, H//T); the two counts
agree exactly when T divides both H and W. -/
theorem decode_png_tile_count (p : Palette) (img : PImage)
    (hT : 0 < p.tile_size) :
    (decode_png p img).1.length =
      ((img.height + p.tile_size - 1) / p.tile_size) *
        ((img.width + p.tile_size - 1) / p.tile_size) ∧
    (decode_png p img).2.1 = img.width / p.tile_size ∧
    (decode_png p img).2.2 = img.height / p.tile_size := by
  refine ⟨?_, rfl, rfl⟩
  show ((extract_tiles_and_sample_centers img p.tile_size).1.map
      (match_colors_to_opcodes p)).length = _
  rw [List.length_map]
  unfold extract_tiles_and_sample_centers
  simp only []
  rw [length_flatMap_map]
  simp [pyRange, pyRangeLen]

/-- C6 witness: the 3x3 image at tile size 2 has ceil counts 2*2 = 4
and floor grid 1x1. -/
theorem decode_png_tile_count_witness :
    0 < palC6.tile_size ∧
    ((decode_png palC6 imgC6).1.length =
        ((imgC6.height + palC6.tile_size - 1) / palC6.tile_size) *
          ((imgC6.width + palC6.tile_size - 1) / palC6.tile_size) ∧
      (decode_png palC6 imgC6).2.1 = imgC6.width / palC6.tile_size ∧
      (decode_png palC6 imgC6).2.2 = imgC6.height / palC6.tile_size) :=
  ⟨by decide, decode_png_tile_count palC6 imgC6 (by decide)⟩

/- ------------------------------------------------------------------
   Program loading spellings (for C8)
   ------------------------------------------------------------------ -/

/-- C8 counterexample: loading the lowered spelling [{"opcode":"NOP"}]
fails with "Invalid instruction at index 0" (from_json_array requires
an "op" key), while the equivalent [{"op":"NOP"}] loads fine — the two
spellings are not accepted interchangeably. -/
theorem from_json_array_rejects_opcode_spelling :
    from_json_array [{ op := none, arg := none, opcode := some "NOP" }] =
      Except.error "Invalid instruction at index 0" ∧
    from_json_array [{ op := some "NOP", arg := none, opcode := none }] =
      Except.ok { instructions := [{ op := "NOP", arg := none }] } := by
  refine ⟨by rfl, by rfl⟩

/-- C8 (amended): the core accepts only the {"op": NAME} spelling when
loading a program: for every NAME in the opcode set other than PUSHI,
[{"op": NAME}] loads to that single instruction, while any instruction
object without an "op" key — the lowered {"opcode": NAME} spelling
included, whatever its other keys hold — fails at index 0. -/
theorem from_json_array_op_spelling_only (name : String)
    (h1 : name ∈ OPCODES) (h2 : name ≠ "PUSHI") :
    from_json_array [{ op := some name, arg := none, opcode := none }] =
      Except.ok { instructions := [{ op := name, arg := none }] } ∧
    (∀ a oc : Option String,
      from_json_array [{ op := none, arg := a, opcode := oc }] =
        Except.error "Invalid instruction at index 0") := by
  constructor
  · unfold from_json_array fromJsonAux
    simp [validate_instruction, h1, h2, fromJsonAux]
  · intro a oc
    rfl

/-- C8 witness: the opcode RED_OP. -/
theorem from_json_array_op_spelling_only_witness :
    "RED_OP" ∈ OPCODES ∧ "RED_OP" ≠ "PUSHI" ∧
    (from_json_array [{ op := some "RED_OP", arg := none, opcode := none }] =
        Except.ok { instructions := [{ op := "RED_OP", arg := none }] } ∧
      (∀ a oc : Option String,
        from_json_array [{ op := none, arg := a, opcode := oc }] =
          Except.error "Invalid instruction at index 0")) :=
  ⟨by decide, by decide,
   from_json_array_op_spelling_only "RED_OP" (by decide) (by decide)⟩

end DVC
